import Mathlib

/-!
Shallow embedding of the excel-comparator reconciliation engine
(`src/comparator.ts`, class `ExcelComparator`) and of the command-line
argument parser (`src/argParser.ts`, class `ArgumentParser`).

Cell values are the scalar values exceljs hands back for a cell
(`cell.value`): text, number, boolean, or null/undefined.  JavaScript
string primitives (`String(x)`, `.trim()`, `.toLowerCase()`,
`.toUpperCase()`) are modelled over `List Char`; this «matches» the JS
behaviour on ASCII data, which is all the repository manipulates.
-/

/-- A scalar cell value as produced by the Excel row extractor. -/
inductive Cell where
  | str : String → Cell
  | num : Int → Cell
  | boolean : Bool → Cell
  | empty : Cell
deriving DecidableEq

/-- JavaScript truthiness of a cell value: `""`, `0`, `false` and
null/undefined are falsy, everything else is truthy. -/
def truthy : Cell → Bool
  | .str s => s != ""
  | .num n => n != 0
  | .boolean b => b
  | .empty => false

/-- Models `String.prototype.trim()`: drop whitespace from both ends. -/
def jsTrim (s : String) : String :=
  ⟨((s.data.dropWhile Char.isWhitespace).reverse.dropWhile Char.isWhitespace).reverse⟩

/-- Models `String.prototype.toLowerCase()` (ASCII case folding). -/
def jsToLower (s : String) : String :=
  ⟨s.data.map Char.toLower⟩

/-- Models `String.prototype.toUpperCase()` (ASCII case folding). -/
def jsToUpper (s : String) : String :=
  ⟨s.data.map Char.toUpper⟩

/-- Models the JS conversion `String(x)` on a cell value.  (`String(null)`
is `"null"`; that branch is unreachable in the code below, which always
guards with truthiness first.) -/
def jsString : Cell → String
  | .str s => s
  | .num n => toString n
  | .boolean b => if b then "true" else "false"
  | .empty => "null"

/-- A row record as produced by `ExcelReader.extractColumns`: a mapping
from column letter to cell value plus the `_rowNumber` property. -/
structure Row where
  cells : List (String × Cell)
  rowNumber : Nat
deriving DecidableEq

/-- Property read `row[col]`; an absent property is `undefined`, which the
truthiness guards of the comparator treat like an empty cell. -/
def getCell (row : Row) (col : String) : Cell :=
  match row.cells.find? (fun p => p.1 == col) with
  | some p => p.2
  | none => Cell.empty

namespace ExcelComparator

/-- Mirrors `MatchedRecord` of `src/comparator.ts`. -/
structure MatchedRecord where
  reference : String
  file1Version : Cell
  file2Version : Cell
  file1Row : Nat
  file2Row : Nat
deriving DecidableEq

/-- Mirrors `MismatchedRecord` of `src/comparator.ts` (same shape as
`MatchedRecord`, kept separate as in the source). -/
structure MismatchedRecord where
  reference : String
  file1Version : Cell
  file2Version : Cell
  file1Row : Nat
  file2Row : Nat
deriving DecidableEq

/-- Mirrors `UnmatchedRecord` of `src/comparator.ts`. -/
structure UnmatchedRecord where
  reference : String
  version : Cell
  row : Nat
deriving DecidableEq

/-- Mirrors `ComparisonSummary` of `src/comparator.ts`. -/
structure ComparisonSummary where
  totalFile1 : Nat
  totalFile2 : Nat
  «matches» : Nat
  mismatches : Nat
  onlyInFile1 : Nat
  onlyInFile2 : Nat
deriving DecidableEq

/-- Mirrors `ComparisonResult` of `src/comparator.ts`. -/
structure ComparisonResult where
  «matches» : List MatchedRecord
  mismatches : List MismatchedRecord
  onlyInFile1 : List UnmatchedRecord
  onlyInFile2 : List UnmatchedRecord
  summary : ComparisonSummary
  file1Name : String
  file2Name : String
deriving DecidableEq

/-- Embeds `normalizeReference` of `src/comparator.ts`:
`if (!ref) return null; const refStr = String(ref).trim(); return
refStr.length > 0 ? refStr : null;`. -/
def normalizeReference (ref : Cell) : Option String :=
  if truthy ref then
    let refStr := jsTrim (jsString ref)
    if refStr.length > 0 then some refStr else none
  else none

/-- Embeds `versionsMatch` of `src/comparator.ts`: each argument is
coerced to the empty string when falsy (the `version || empty` idiom),
converted to text, trimmed, lower-cased, and compared exactly. -/
def versionsMatch (version1 version2 : Cell) : Bool :=
  let v1 := jsTrim (jsString (if truthy version1 then version1 else Cell.str ""))
  let v2 := jsTrim (jsString (if truthy version2 then version2 else Cell.str ""))
  jsToLower v1 == jsToLower v2

/-- The per-key payload of the `file2Map` lookup table. -/
structure VersionRecord where
  version : Cell
  row : Nat
deriving DecidableEq

/-- Models `Map.set`: the JS `Map` overwrites on duplicate keys; prepending with
first-hit lookup (`mapGet`) realizes the same last-write-wins lookup. -/
def mapSet (m : List (String × VersionRecord)) (k : String) (v : VersionRecord) :
    List (String × VersionRecord) :=
  (k, v) :: m

/-- Models `Map.get`. -/
def mapGet (m : List (String × VersionRecord)) (k : String) : Option VersionRecord :=
  match m.find? (fun p => p.1 == k) with
  | some p => some p.2
  | none => none

/-- The first `forEach` of `compare`: populate `file2Map` from
`file2Data`, keying and valuing both on `row[file2Column]`. -/
def buildFile2Map (file2Data : List Row) (file2Column : String) :
    List (String × VersionRecord) :=
  file2Data.foldl
    (fun m row =>
      match normalizeReference (getCell row file2Column) with
      | some reference => mapSet m reference ⟨getCell row file2Column, row.rowNumber⟩
      | none => m)
    []

/-- Mutable state of the second `forEach` of `compare`: the three
file1-side buckets plus the `matchedFile2Refs` set (modelled as a list
with cons for `Set.add`; only membership is ever queried). -/
structure CompareState where
  «matches» : List MatchedRecord
  mismatches : List MismatchedRecord
  onlyInFile1 : List UnmatchedRecord
  consumed : List String
deriving DecidableEq

/-- Body of the second `forEach` of `compare`, processing one `file1Row`.
In the source `matchedFile2Refs.add(reference)` precedes the
`versionsMatch` branch, so both branches record the consumption. -/
def processFile1Row (file2Map : List (String × VersionRecord)) (file1Column : String)
    (st : CompareState) (file1Row : Row) : CompareState :=
  match normalizeReference (getCell file1Row file1Column) with
  | none => st
  | some reference =>
    let file1Version := getCell file1Row file1Column
    let file1RowNumber := file1Row.rowNumber
    match mapGet file2Map reference with
    | some file2Record =>
      if versionsMatch file1Version file2Record.version then
        { st with
          «matches» := st.«matches» ++
            [⟨reference, file1Version, file2Record.version, file1RowNumber, file2Record.row⟩],
          consumed := reference :: st.consumed }
      else
        { st with
          mismatches := st.mismatches ++
            [⟨reference, file1Version, file2Record.version, file1RowNumber, file2Record.row⟩],
          consumed := reference :: st.consumed }
    | none =>
      { st with
        onlyInFile1 := st.onlyInFile1 ++ [⟨reference, file1Version, file1RowNumber⟩] }

/-- The third `forEach` of `compare`: re-scan `file2Data` and report every
row whose normalized key was never consumed. -/
def unmatchedFile2 (file2Data : List Row) (file2Column : String)
    (consumed : List String) : List UnmatchedRecord :=
  file2Data.filterMap fun file2Row =>
    match normalizeReference (getCell file2Row file2Column) with
    | none => none
    | some reference =>
      if consumed.contains reference then none
      else some ⟨reference, getCell file2Row file2Column, file2Row.rowNumber⟩

/-- Embeds `ExcelComparator.compare` of `src/comparator.ts`. -/
def compare (file1Data file2Data : List Row) (file1Column file2Column : String)
    (file1Name file2Name : String) : ComparisonResult :=
  let file2Map := buildFile2Map file2Data file2Column
  let st := file1Data.foldl (processFile1Row file2Map file1Column) ⟨[], [], [], []⟩
  let onlyInFile2 := unmatchedFile2 file2Data file2Column st.consumed
  { «matches» := st.«matches»
    mismatches := st.mismatches
    onlyInFile1 := st.onlyInFile1
    onlyInFile2 := onlyInFile2
    summary :=
      ⟨file1Data.length, file2Data.length, st.«matches».length, st.mismatches.length,
        st.onlyInFile1.length, onlyInFile2.length⟩
    file1Name := file1Name
    file2Name := file2Name }

end ExcelComparator

namespace ArgumentParser

/-- Mirrors `FileArgument` of `src/argParser.ts`. -/
structure FileArgument where
  filePath : String
  sheetName : String
  columnLetter : String
deriving DecidableEq

/-- Mirrors `ParsedArgs` of `src/argParser.ts` (`files` is a list: the help path
returns an empty `files` behind an `as any` cast). -/
structure ParsedArgs where
  files : List FileArgument
  showHelp : Bool
deriving DecidableEq

/-- Embeds `isValidColumnLetter`: the regex `/^[A-Za-z]{1,2}$/`. -/
def isValidColumnLetter (col : String) : Bool :=
  decide (1 ≤ col.length) && decide (col.length ≤ 2) && col.data.all Char.isAlpha

/-- Embeds `parseFileArguments`: the `while` loop over the argument list.
Each `-f` needs three following tokens (the `i + 3 >= length` bound
check), none empty, with a valid column letter, which is upper-cased. -/
def parseFileArguments : List String → Except String (List FileArgument)
  | [] => Except.ok []
  | arg :: rest =>
    if arg == "-f" then
      match rest with
      | filePath :: sheetName :: columnLetter :: rest2 =>
        if filePath == "" || sheetName == "" || columnLetter == "" then
          Except.error "Missing arguments for -f flag"
        else if !isValidColumnLetter columnLetter then
          Except.error ("Invalid column letter: " ++ columnLetter)
        else
          match parseFileArguments rest2 with
          | Except.ok files =>
            Except.ok (⟨filePath, sheetName, jsToUpper columnLetter⟩ :: files)
          | Except.error e => Except.error e
      | _ =>
        Except.error "Invalid -f argument. Expected: -f <file-path> <sheet-name> <column-letter>"
    else Except.error ("Unknown argument: " ++ arg)

/-- Embeds `ArgumentParser.parse`, acting on `process.argv.slice(2)` (the
slice done in the class constructor is performed by the caller). -/
def parse (args : List String) : Except String ParsedArgs :=
  if args.length == 0 || args.contains "--help" || args.contains "-h" then
    Except.ok ⟨[], true⟩
  else
    match parseFileArguments args with
    | Except.error e => Except.error e
    | Except.ok files =>
      if files.length != 2 then
        Except.error "Exactly 2 files must be specified with -f flag"
      else Except.ok ⟨files, false⟩

end ArgumentParser

namespace ExcelComparator

/-! ### Characterization of the file1 loop

Since neither `file2Map` nor the lookup outcome depends on the evolving
state, each `file1Data` row contributes to its bucket independently; the
loop is a `filterMap` per bucket. -/

/-- The `MatchedRecord` contributed by one file1 row, if any. -/
def matchEntry (file2Map : List (String × VersionRecord)) (file1Column : String)
    (file1Row : Row) : Option MatchedRecord :=
  match normalizeReference (getCell file1Row file1Column) with
  | none => none
  | some reference =>
    match mapGet file2Map reference with
    | some file2Record =>
      if versionsMatch (getCell file1Row file1Column) file2Record.version then
        some ⟨reference, getCell file1Row file1Column, file2Record.version,
          file1Row.rowNumber, file2Record.row⟩
      else none
    | none => none

/-- The `MismatchedRecord` contributed by one file1 row, if any. -/
def mismatchEntry (file2Map : List (String × VersionRecord)) (file1Column : String)
    (file1Row : Row) : Option MismatchedRecord :=
  match normalizeReference (getCell file1Row file1Column) with
  | none => none
  | some reference =>
    match mapGet file2Map reference with
    | some file2Record =>
      if versionsMatch (getCell file1Row file1Column) file2Record.version then none
      else
        some ⟨reference, getCell file1Row file1Column, file2Record.version,
          file1Row.rowNumber, file2Record.row⟩
    | none => none

/-- The `onlyInFile1` record contributed by one file1 row, if any. -/
def onlyInFile1Entry (file2Map : List (String × VersionRecord)) (file1Column : String)
    (file1Row : Row) : Option UnmatchedRecord :=
  match normalizeReference (getCell file1Row file1Column) with
  | none => none
  | some reference =>
    match mapGet file2Map reference with
    | some _ => none
    | none => some ⟨reference, getCell file1Row file1Column, file1Row.rowNumber⟩

/-- The key one file1 row adds to `matchedFile2Refs`, if any. -/
def consumedKey (file2Map : List (String × VersionRecord)) (file1Column : String)
    (file1Row : Row) : Option String :=
  match normalizeReference (getCell file1Row file1Column) with
  | none => none
  | some reference =>
    match mapGet file2Map reference with
    | some _ => some reference
    | none => none

theorem foldl_processFile1Row_spec (file2Map : List (String × VersionRecord))
    (c1 : String) :
    ∀ (l : List Row) (st : CompareState),
      l.foldl (processFile1Row file2Map c1) st =
        ⟨st.«matches» ++ l.filterMap (matchEntry file2Map c1),
         st.mismatches ++ l.filterMap (mismatchEntry file2Map c1),
         st.onlyInFile1 ++ l.filterMap (onlyInFile1Entry file2Map c1),
         (l.filterMap (consumedKey file2Map c1)).reverse ++ st.consumed⟩
  | [], st => by cases st; simp
  | r :: t, st => by
    have ih := foldl_processFile1Row_spec file2Map c1 t (processFile1Row file2Map c1 st r)
    rw [List.foldl_cons, ih]
    cases hn : normalizeReference (getCell r c1) with
    | none =>
      simp [processFile1Row, matchEntry, mismatchEntry, onlyInFile1Entry, consumedKey, hn]
    | some reference =>
      cases hm : mapGet file2Map reference with
      | none =>
        simp [processFile1Row, matchEntry, mismatchEntry, onlyInFile1Entry, consumedKey,
          hn, hm]
      | some rec2 =>
        by_cases hv : versionsMatch (getCell r c1) rec2.version = true
        · simp [processFile1Row, matchEntry, mismatchEntry, onlyInFile1Entry, consumedKey,
            hn, hm, hv]
        · simp [processFile1Row, matchEntry, mismatchEntry, onlyInFile1Entry, consumedKey,
            hn, hm, hv]

theorem compare_matches_eq (f1 f2 : List Row) (c1 c2 n1 n2 : String) :
    (compare f1 f2 c1 c2 n1 n2).«matches»
      = f1.filterMap (matchEntry (buildFile2Map f2 c2) c1) := by
  simp [compare, foldl_processFile1Row_spec]

theorem compare_mismatches_eq (f1 f2 : List Row) (c1 c2 n1 n2 : String) :
    (compare f1 f2 c1 c2 n1 n2).mismatches
      = f1.filterMap (mismatchEntry (buildFile2Map f2 c2) c1) := by
  simp [compare, foldl_processFile1Row_spec]

theorem compare_onlyInFile1_eq (f1 f2 : List Row) (c1 c2 n1 n2 : String) :
    (compare f1 f2 c1 c2 n1 n2).onlyInFile1
      = f1.filterMap (onlyInFile1Entry (buildFile2Map f2 c2) c1) := by
  simp [compare, foldl_processFile1Row_spec]

theorem compare_onlyInFile2_eq (f1 f2 : List Row) (c1 c2 n1 n2 : String) :
    (compare f1 f2 c1 c2 n1 n2).onlyInFile2
      = unmatchedFile2 f2 c2
          ((f1.filterMap (consumedKey (buildFile2Map f2 c2) c1)).reverse ++ []) := by
  simp only [compare, foldl_processFile1Row_spec]

end ExcelComparator

namespace ExcelComparator

/-! ### Normalization and the lookup-table invariant -/

theorem normalizeReference_some_spec {ref : Cell} {k : String}
    (h : normalizeReference ref = some k) :
    truthy ref = true ∧ jsTrim (jsString ref) = k := by
  unfold normalizeReference at h
  split at h
  case isTrue ht =>
    refine ⟨ht, ?_⟩
    dsimp only at h
    split at h
    case isTrue hl => exact Option.some.inj h
    case isFalse hl => cases h
  case isFalse ht => cases h

theorem versionsMatch_of_normalize {a b : Cell} {k : String}
    (ha : normalizeReference a = some k) (hb : normalizeReference b = some k) :
    versionsMatch a b = true := by
  obtain ⟨ta, ea⟩ := normalizeReference_some_spec ha
  obtain ⟨tb, eb⟩ := normalizeReference_some_spec hb
  unfold versionsMatch
  simp [ta, tb, ea, eb]

theorem buildFile2Map_aux (c2 : String) :
    ∀ (l : List Row) (m : List (String × VersionRecord)),
      (∀ p ∈ m, normalizeReference p.2.version = some p.1) →
      ∀ p ∈ l.foldl
          (fun m row =>
            match normalizeReference (getCell row c2) with
            | some reference => mapSet m reference ⟨getCell row c2, row.rowNumber⟩
            | none => m)
          m,
        normalizeReference p.2.version = some p.1
  | [], _, hm => hm
  | r :: t, m, hm => by
    rw [List.foldl_cons]
    apply buildFile2Map_aux c2 t
    cases hn : normalizeReference (getCell r c2) with
    | none => simpa [hn] using hm
    | some reference =>
      intro p hp
      simp only [hn, mapSet, List.mem_cons] at hp
      rcases hp with h | h
      · subst h; exact hn
      · exact hm p h

theorem buildFile2Map_mem_norm {f2 : List Row} {c2 : String}
    {p : String × VersionRecord} (hp : p ∈ buildFile2Map f2 c2) :
    normalizeReference p.2.version = some p.1 := by
  refine buildFile2Map_aux c2 f2 [] ?_ p hp
  intro q hq
  cases hq

theorem mapGet_some_mem {m : List (String × VersionRecord)} {k : String}
    {rec2 : VersionRecord} (h : mapGet m k = some rec2) : (k, rec2) ∈ m := by
  unfold mapGet at h
  cases hf : m.find? (fun p => p.1 == k) with
  | none => rw [hf] at h; cases h
  | some p =>
    rw [hf] at h
    have hk : p.1 = k := by
      have := List.find?_some hf
      simpa using this
    have hmem := List.mem_of_find?_eq_some hf
    have hrec : p.2 = rec2 := Option.some.inj h
    have : p = (k, rec2) := by
      cases p
      simp_all
    rw [← this]
    exact hmem

theorem mapGet_buildFile2Map_norm {f2 : List Row} {c2 : String} {k : String}
    {rec2 : VersionRecord} (h : mapGet (buildFile2Map f2 c2) k = some rec2) :
    normalizeReference rec2.version = some k :=
  buildFile2Map_mem_norm (mapGet_some_mem h)

/-- With the lookup table of `compare`, a found key always passes the
version check: both the key under comparison and the stored value
normalize to the same string. -/
theorem mismatchEntry_eq_none (f2 : List Row) (c2 c1 : String) (row : Row) :
    mismatchEntry (buildFile2Map f2 c2) c1 row = none := by
  cases hn : normalizeReference (getCell row c1) with
  | none => simp [mismatchEntry, hn]
  | some reference =>
    cases hm : mapGet (buildFile2Map f2 c2) reference with
    | none => simp [mismatchEntry, hn, hm]
    | some rec2 =>
      have hrec : normalizeReference rec2.version = some reference :=
        mapGet_buildFile2Map_norm hm
      have hv : versionsMatch (getCell row c1) rec2.version = true :=
        versionsMatch_of_normalize hn hrec
      simp [mismatchEntry, hn, hm, hv]

theorem compare_mismatches_eq_nil (f1 f2 : List Row) (c1 c2 n1 n2 : String) :
    (compare f1 f2 c1 c2 n1 n2).mismatches = [] := by
  rw [compare_mismatches_eq]
  rw [List.filterMap_eq_nil_iff]
  intro row _
  exact mismatchEntry_eq_none f2 c2 c1 row

end ExcelComparator

namespace ExcelComparator

/-! ### Per-row elimination and introduction lemmas -/

theorem matchEntry_some_elim {file2Map : List (String × VersionRecord)} {c1 : String}
    {row : Row} {e : MatchedRecord} (h : matchEntry file2Map c1 row = some e) :
    normalizeReference (getCell row c1) = some e.reference
      ∧ e.file1Version = getCell row c1
      ∧ mapGet file2Map e.reference = some ⟨e.file2Version, e.file2Row⟩ := by
  cases hn : normalizeReference (getCell row c1) with
  | none => simp [matchEntry, hn] at h
  | some reference =>
    cases hm : mapGet file2Map reference with
    | none => simp [matchEntry, hn, hm] at h
    | some rec2 =>
      by_cases hv : versionsMatch (getCell row c1) rec2.version = true
      · simp only [matchEntry, hn, hm, hv, if_true, Option.some.injEq] at h
        subst h
        exact ⟨rfl, rfl, by simp [hm]⟩
      · simp [matchEntry, hn, hm, hv] at h

theorem matchEntry_of {f2 : List Row} {c2 c1 : String} {row : Row} {k : String}
    {rec2 : VersionRecord} (hn : normalizeReference (getCell row c1) = some k)
    (hm : mapGet (buildFile2Map f2 c2) k = some rec2) :
    matchEntry (buildFile2Map f2 c2) c1 row
      = some ⟨k, getCell row c1, rec2.version, row.rowNumber, rec2.row⟩ := by
  have hv : versionsMatch (getCell row c1) rec2.version = true :=
    versionsMatch_of_normalize hn (mapGet_buildFile2Map_norm hm)
  simp [matchEntry, hn, hm, hv]

theorem onlyInFile1Entry_some_elim {file2Map : List (String × VersionRecord)}
    {c1 : String} {row : Row} {e : UnmatchedRecord}
    (h : onlyInFile1Entry file2Map c1 row = some e) :
    normalizeReference (getCell row c1) = some e.reference
      ∧ mapGet file2Map e.reference = none := by
  cases hn : normalizeReference (getCell row c1) with
  | none => simp [onlyInFile1Entry, hn] at h
  | some reference =>
    cases hm : mapGet file2Map reference with
    | none =>
      simp only [onlyInFile1Entry, hn, hm, Option.some.injEq] at h
      subst h
      exact ⟨rfl, hm⟩
    | some rec2 => simp [onlyInFile1Entry, hn, hm] at h

theorem onlyInFile1Entry_of {file2Map : List (String × VersionRecord)} {c1 : String}
    {row : Row} {k : String} (hn : normalizeReference (getCell row c1) = some k)
    (hm : mapGet file2Map k = none) :
    onlyInFile1Entry file2Map c1 row = some ⟨k, getCell row c1, row.rowNumber⟩ := by
  simp [onlyInFile1Entry, hn, hm]

theorem consumedKey_some_elim {file2Map : List (String × VersionRecord)} {c1 : String}
    {row : Row} {k : String} (h : consumedKey file2Map c1 row = some k) :
    normalizeReference (getCell row c1) = some k ∧ (mapGet file2Map k).isSome = true := by
  cases hn : normalizeReference (getCell row c1) with
  | none => simp [consumedKey, hn] at h
  | some reference =>
    cases hm : mapGet file2Map reference with
    | none => simp [consumedKey, hn, hm] at h
    | some rec2 =>
      simp only [consumedKey, hn, hm, Option.some.injEq] at h
      subst h
      exact ⟨rfl, by simp [hm]⟩

theorem consumedKey_of {file2Map : List (String × VersionRecord)} {c1 : String}
    {row : Row} {k : String} {rec2 : VersionRecord}
    (hn : normalizeReference (getCell row c1) = some k)
    (hm : mapGet file2Map k = some rec2) :
    consumedKey file2Map c1 row = some k := by
  simp [consumedKey, hn, hm]

theorem unmatchedFile2_mem_elim {f2 : List Row} {c2 : String} {cs : List String}
    {e : UnmatchedRecord} (h : e ∈ unmatchedFile2 f2 c2 cs) :
    (∃ row ∈ f2, normalizeReference (getCell row c2) = some e.reference)
      ∧ ¬ e.reference ∈ cs := by
  unfold unmatchedFile2 at h
  rw [List.mem_filterMap] at h
  obtain ⟨row, hrow, hf⟩ := h
  cases hn : normalizeReference (getCell row c2) with
  | none => simp [hn] at hf
  | some reference =>
    simp only [hn] at hf
    by_cases hc : cs.contains reference = true
    · rw [if_pos hc] at hf
      cases hf
    · rw [if_neg hc] at hf
      have he : (⟨reference, getCell row c2, row.rowNumber⟩ : UnmatchedRecord) = e :=
        Option.some.inj hf
      subst he
      refine ⟨⟨row, hrow, hn⟩, ?_⟩
      intro hmem
      exact hc (by simpa using hmem)

theorem unmatchedFile2_mem_intro {f2 : List Row} {c2 : String} {cs : List String}
    {row : Row} {k : String} (hrow : row ∈ f2)
    (hn : normalizeReference (getCell row c2) = some k) (hc : ¬ k ∈ cs) :
    (⟨k, getCell row c2, row.rowNumber⟩ : UnmatchedRecord) ∈ unmatchedFile2 f2 c2 cs := by
  unfold unmatchedFile2
  rw [List.mem_filterMap]
  refine ⟨row, hrow, ?_⟩
  have hcb : ¬ (cs.contains k = true) := fun hx => hc (by simpa using hx)
  simp only [hn]
  rw [if_neg hcb]

/-! ### Bucket predicates -/

/-- The Matched bucket has an entry for key `k`. -/
abbrev hasMatchRef (res : ComparisonResult) (k : String) : Prop :=
  ∃ e ∈ res.«matches», e.reference = k

/-- The Mismatched bucket has an entry for key `k`. -/
abbrev hasMismatchRef (res : ComparisonResult) (k : String) : Prop :=
  ∃ e ∈ res.mismatches, e.reference = k

/-- The UnmatchedA bucket has an entry for key `k`. -/
abbrev hasOnlyInFile1Ref (res : ComparisonResult) (k : String) : Prop :=
  ∃ e ∈ res.onlyInFile1, e.reference = k

/-- The UnmatchedB bucket has an entry for key `k`. -/
abbrev hasOnlyInFile2Ref (res : ComparisonResult) (k : String) : Prop :=
  ∃ e ∈ res.onlyInFile2, e.reference = k

/-- Exactly one of three alternatives holds. -/
abbrev exactlyOne (a b c : Prop) : Prop :=
  (a ∧ ¬ b ∧ ¬ c) ∨ (b ∧ ¬ a ∧ ¬ c) ∨ (c ∧ ¬ a ∧ ¬ b)

theorem bucket_length_sum (file2Map : List (String × VersionRecord)) (c1 : String) :
    ∀ l : List Row,
      (l.filterMap (matchEntry file2Map c1)).length
          + (l.filterMap (mismatchEntry file2Map c1)).length
          + (l.filterMap (onlyInFile1Entry file2Map c1)).length
        = l.countP fun row => (normalizeReference (getCell row c1)).isSome
  | [] => rfl
  | r :: t => by
    have ih := bucket_length_sum file2Map c1 t
    simp only [List.filterMap_cons, List.countP_cons]
    cases hn : normalizeReference (getCell r c1) with
    | none =>
      simp only [matchEntry, mismatchEntry, onlyInFile1Entry, hn]
      simpa [hn] using ih
    | some reference =>
      cases hm : mapGet file2Map reference with
      | none =>
        simp only [matchEntry, mismatchEntry, onlyInFile1Entry, hn, hm]
        simp [hn]
        omega
      | some rec2 =>
        by_cases hv : versionsMatch (getCell r c1) rec2.version = true
        · simp only [matchEntry, mismatchEntry, onlyInFile1Entry, hn, hm, hv, if_true]
          simp [hn]
          omega
        · rw [Bool.not_eq_true] at hv
          simp only [matchEntry, mismatchEntry, onlyInFile1Entry, hn, hm, hv,
            Bool.false_eq_true, if_false]
          simp [hn]
          omega

end ExcelComparator

namespace ExcelComparator

/-! ### Bucket membership bridges -/

theorem hasMatchRef_of_found {f1 f2 : List Row} {c1 c2 : String} {row : Row}
    {k : String} {rec2 : VersionRecord} (n1 n2 : String) (hrow : row ∈ f1)
    (hn : normalizeReference (getCell row c1) = some k)
    (hm : mapGet (buildFile2Map f2 c2) k = some rec2) :
    hasMatchRef (compare f1 f2 c1 c2 n1 n2) k := by
  refine ⟨⟨k, getCell row c1, rec2.version, row.rowNumber, rec2.row⟩, ?_, rfl⟩
  rw [compare_matches_eq]
  exact List.mem_filterMap.mpr ⟨row, hrow, matchEntry_of hn hm⟩

theorem not_hasMatchRef_of_not_found {f1 f2 : List Row} {c1 c2 : String} {k : String}
    (n1 n2 : String) (hm : mapGet (buildFile2Map f2 c2) k = none) :
    ¬ hasMatchRef (compare f1 f2 c1 c2 n1 n2) k := by
  rintro ⟨e, he, hek⟩
  rw [compare_matches_eq] at he
  obtain ⟨row, _, hf⟩ := List.mem_filterMap.mp he
  obtain ⟨_, _, hmm⟩ := matchEntry_some_elim hf
  rw [hek, hm] at hmm
  cases hmm

theorem not_hasMismatchRef (f1 f2 : List Row) (c1 c2 n1 n2 : String) (k : String) :
    ¬ hasMismatchRef (compare f1 f2 c1 c2 n1 n2) k := by
  rintro ⟨e, he, _⟩
  rw [compare_mismatches_eq_nil] at he
  cases he

theorem hasOnlyInFile1Ref_of_not_found {f1 f2 : List Row} {c1 c2 : String} {row : Row}
    {k : String} (n1 n2 : String) (hrow : row ∈ f1)
    (hn : normalizeReference (getCell row c1) = some k)
    (hm : mapGet (buildFile2Map f2 c2) k = none) :
    hasOnlyInFile1Ref (compare f1 f2 c1 c2 n1 n2) k := by
  refine ⟨⟨k, getCell row c1, row.rowNumber⟩, ?_, rfl⟩
  rw [compare_onlyInFile1_eq]
  exact List.mem_filterMap.mpr ⟨row, hrow, onlyInFile1Entry_of hn hm⟩

theorem not_hasOnlyInFile1Ref_of_found {f1 f2 : List Row} {c1 c2 : String} {k : String}
    {rec2 : VersionRecord} (n1 n2 : String)
    (hm : mapGet (buildFile2Map f2 c2) k = some rec2) :
    ¬ hasOnlyInFile1Ref (compare f1 f2 c1 c2 n1 n2) k := by
  rintro ⟨e, he, hek⟩
  rw [compare_onlyInFile1_eq] at he
  obtain ⟨row, _, hf⟩ := List.mem_filterMap.mp he
  obtain ⟨_, hnone⟩ := onlyInFile1Entry_some_elim hf
  rw [hek, hm] at hnone
  cases hnone

theorem consumed_mem_iff {f1 f2 : List Row} {c1 c2 : String} {k : String} :
    k ∈ (f1.filterMap (consumedKey (buildFile2Map f2 c2) c1)).reverse ++ ([] : List String)
      ↔ ∃ row ∈ f1, consumedKey (buildFile2Map f2 c2) c1 row = some k := by
  simp [List.mem_filterMap]

theorem hasOnlyInFile2Ref_intro {f1 f2 : List Row} {c1 c2 : String} {row : Row}
    {k : String} (n1 n2 : String) (hrow : row ∈ f2)
    (hn : normalizeReference (getCell row c2) = some k)
    (hnc : ¬ ∃ row1 ∈ f1, consumedKey (buildFile2Map f2 c2) c1 row1 = some k) :
    hasOnlyInFile2Ref (compare f1 f2 c1 c2 n1 n2) k := by
  refine ⟨⟨k, getCell row c2, row.rowNumber⟩, ?_, rfl⟩
  rw [compare_onlyInFile2_eq]
  apply unmatchedFile2_mem_intro hrow hn
  intro hmem
  exact hnc (consumed_mem_iff.mp hmem)

theorem not_hasOnlyInFile2Ref_of_consumed {f1 f2 : List Row} {c1 c2 : String}
    {k : String} {row1 : Row} (n1 n2 : String) (hrow1 : row1 ∈ f1)
    (hck : consumedKey (buildFile2Map f2 c2) c1 row1 = some k) :
    ¬ hasOnlyInFile2Ref (compare f1 f2 c1 c2 n1 n2) k := by
  rintro ⟨e, he, hek⟩
  rw [compare_onlyInFile2_eq] at he
  obtain ⟨_, hnotin⟩ := unmatchedFile2_mem_elim he
  apply hnotin
  rw [hek, consumed_mem_iff]
  exact ⟨row1, hrow1, hck⟩

theorem matchRef_gives_consumed {f1 f2 : List Row} {c1 c2 : String} {k : String}
    {n1 n2 : String} (h : hasMatchRef (compare f1 f2 c1 c2 n1 n2) k) :
    ∃ row1 ∈ f1, consumedKey (buildFile2Map f2 c2) c1 row1 = some k := by
  obtain ⟨e, he, hek⟩ := h
  rw [compare_matches_eq] at he
  obtain ⟨row1, hrow1, hf⟩ := List.mem_filterMap.mp he
  obtain ⟨hn, _, hmm⟩ := matchEntry_some_elim hf
  refine ⟨row1, hrow1, ?_⟩
  rw [hek] at hn hmm
  exact consumedKey_of hn hmm

theorem consumed_gives_matchRef {f1 f2 : List Row} {c1 c2 : String} {k : String}
    {row1 : Row} (n1 n2 : String) (hrow1 : row1 ∈ f1)
    (hck : consumedKey (buildFile2Map f2 c2) c1 row1 = some k) :
    hasMatchRef (compare f1 f2 c1 c2 n1 n2) k := by
  obtain ⟨hn, hs⟩ := consumedKey_some_elim hck
  obtain ⟨rec2, hm⟩ := Option.isSome_iff_exists.mp hs
  exact hasMatchRef_of_found n1 n2 hrow1 hn hm

end ExcelComparator

namespace ExcelComparator

/-! ### Claims -/

/-- C2: for every pair of input row sequences and every pair of column
identifiers, the mismatches bucket of `compare` is empty — the stored B
value and the A value are read from the same column as the key, so equal
normalized keys force `versionsMatch`; moreover every found key lands in
the matches bucket. -/
theorem claim_C2_mismatches_always_empty (f1 f2 : List Row) (c1 c2 n1 n2 : String) :
    (compare f1 f2 c1 c2 n1 n2).mismatches = []
    ∧ ∀ row ∈ f1, ∀ k, normalizeReference (getCell row c1) = some k →
        (mapGet (buildFile2Map f2 c2) k).isSome = true →
          hasMatchRef (compare f1 f2 c1 c2 n1 n2) k := by
  refine ⟨compare_mismatches_eq_nil f1 f2 c1 c2 n1 n2, ?_⟩
  intro row hrow k hn hs
  obtain ⟨rec2, hm⟩ := Option.isSome_iff_exists.mp hs
  exact hasMatchRef_of_found n1 n2 hrow hn hm

/-- Witness for C2 at a concrete input: both sides hold one row with key
`"X"`; the mismatch bucket is empty and `"X"` is matched. -/
theorem claim_C2_witness :
    (compare [⟨[("key", Cell.str "X")], 2⟩] [⟨[("key", Cell.str "X")], 3⟩]
        "key" "key" "A" "B").mismatches = []
    ∧ hasMatchRef
        (compare [⟨[("key", Cell.str "X")], 2⟩] [⟨[("key", Cell.str "X")], 3⟩]
          "key" "key" "A" "B") "X" :=
  ⟨(claim_C2_mismatches_always_empty _ _ _ _ _ _).1,
    (claim_C2_mismatches_always_empty
        [⟨[("key", Cell.str "X")], 2⟩] [⟨[("key", Cell.str "X")], 3⟩]
        "key" "key" "A" "B").2
      ⟨[("key", Cell.str "X")], 2⟩ (by decide) "X" (by decide) (by decide)⟩

/-- C3: every A row with a non-absent normalized key contributes to
exactly one of {Matched, Mismatched, UnmatchedA}; every normalized key
occurring in B appears in exactly one of {Matched, Mismatched,
UnmatchedB}; and the three A-side bucket lengths sum to the number of A
rows with a non-absent normalized key. -/
theorem claim_C3_partition_invariant (f1 f2 : List Row) (c1 c2 n1 n2 : String) :
    ((compare f1 f2 c1 c2 n1 n2).«matches».length
        + (compare f1 f2 c1 c2 n1 n2).mismatches.length
        + (compare f1 f2 c1 c2 n1 n2).onlyInFile1.length
      = f1.countP fun row => (normalizeReference (getCell row c1)).isSome)
    ∧ (∀ row ∈ f1, ∀ k, normalizeReference (getCell row c1) = some k →
        exactlyOne (hasMatchRef (compare f1 f2 c1 c2 n1 n2) k)
          (hasMismatchRef (compare f1 f2 c1 c2 n1 n2) k)
          (hasOnlyInFile1Ref (compare f1 f2 c1 c2 n1 n2) k))
    ∧ (∀ row ∈ f2, ∀ k, normalizeReference (getCell row c2) = some k →
        exactlyOne (hasMatchRef (compare f1 f2 c1 c2 n1 n2) k)
          (hasMismatchRef (compare f1 f2 c1 c2 n1 n2) k)
          (hasOnlyInFile2Ref (compare f1 f2 c1 c2 n1 n2) k)) := by
  refine ⟨?_, ?_, ?_⟩
  · rw [compare_matches_eq, compare_mismatches_eq, compare_onlyInFile1_eq]
    exact bucket_length_sum (buildFile2Map f2 c2) c1 f1
  · intro row hrow k hn
    cases hm : mapGet (buildFile2Map f2 c2) k with
    | some rec2 =>
      exact Or.inl ⟨hasMatchRef_of_found n1 n2 hrow hn hm,
        not_hasMismatchRef f1 f2 c1 c2 n1 n2 k,
        not_hasOnlyInFile1Ref_of_found n1 n2 hm⟩
    | none =>
      exact Or.inr (Or.inr ⟨hasOnlyInFile1Ref_of_not_found n1 n2 hrow hn hm,
        not_hasMatchRef_of_not_found n1 n2 hm,
        not_hasMismatchRef f1 f2 c1 c2 n1 n2 k⟩)
  · intro row hrow k hn
    by_cases hc : ∃ row1 ∈ f1, consumedKey (buildFile2Map f2 c2) c1 row1 = some k
    · obtain ⟨row1, hrow1, hck⟩ := hc
      exact Or.inl ⟨consumed_gives_matchRef n1 n2 hrow1 hck,
        not_hasMismatchRef f1 f2 c1 c2 n1 n2 k,
        not_hasOnlyInFile2Ref_of_consumed n1 n2 hrow1 hck⟩
    · refine Or.inr (Or.inr ⟨hasOnlyInFile2Ref_intro n1 n2 hrow hn hc, ?_,
        not_hasMismatchRef f1 f2 c1 c2 n1 n2 k⟩)
      intro hmatch
      exact hc (matchRef_gives_consumed hmatch)

/-- Witness for C3 at a concrete input: A holds key `"X"`, B holds keys
`"X"` and `"Y"`. -/
theorem claim_C3_witness :
    ((compare [⟨[("key", Cell.str "X")], 2⟩]
          [⟨[("key", Cell.str "X")], 3⟩, ⟨[("key", Cell.str "Y")], 4⟩]
          "key" "key" "A" "B").«matches».length
        + (compare [⟨[("key", Cell.str "X")], 2⟩]
            [⟨[("key", Cell.str "X")], 3⟩, ⟨[("key", Cell.str "Y")], 4⟩]
            "key" "key" "A" "B").mismatches.length
        + (compare [⟨[("key", Cell.str "X")], 2⟩]
            [⟨[("key", Cell.str "X")], 3⟩, ⟨[("key", Cell.str "Y")], 4⟩]
            "key" "key" "A" "B").onlyInFile1.length
      = List.countP
          (fun row => (normalizeReference (getCell row "key")).isSome)
          [⟨[("key", Cell.str "X")], 2⟩])
    ∧ exactlyOne
        (hasMatchRef (compare [⟨[("key", Cell.str "X")], 2⟩]
          [⟨[("key", Cell.str "X")], 3⟩, ⟨[("key", Cell.str "Y")], 4⟩]
          "key" "key" "A" "B") "X")
        (hasMismatchRef (compare [⟨[("key", Cell.str "X")], 2⟩]
          [⟨[("key", Cell.str "X")], 3⟩, ⟨[("key", Cell.str "Y")], 4⟩]
          "key" "key" "A" "B") "X")
        (hasOnlyInFile1Ref (compare [⟨[("key", Cell.str "X")], 2⟩]
          [⟨[("key", Cell.str "X")], 3⟩, ⟨[("key", Cell.str "Y")], 4⟩]
          "key" "key" "A" "B") "X")
    ∧ exactlyOne
        (hasMatchRef (compare [⟨[("key", Cell.str "X")], 2⟩]
          [⟨[("key", Cell.str "X")], 3⟩, ⟨[("key", Cell.str "Y")], 4⟩]
          "key" "key" "A" "B") "Y")
        (hasMismatchRef (compare [⟨[("key", Cell.str "X")], 2⟩]
          [⟨[("key", Cell.str "X")], 3⟩, ⟨[("key", Cell.str "Y")], 4⟩]
          "key" "key" "A" "B") "Y")
        (hasOnlyInFile2Ref (compare [⟨[("key", Cell.str "X")], 2⟩]
          [⟨[("key", Cell.str "X")], 3⟩, ⟨[("key", Cell.str "Y")], 4⟩]
          "key" "key" "A" "B") "Y") :=
  ⟨(claim_C3_partition_invariant _ _ _ _ _ _).1,
    (claim_C3_partition_invariant [⟨[("key", Cell.str "X")], 2⟩]
        [⟨[("key", Cell.str "X")], 3⟩, ⟨[("key", Cell.str "Y")], 4⟩]
        "key" "key" "A" "B").2.1
      ⟨[("key", Cell.str "X")], 2⟩ (by decide) "X" (by decide),
    (claim_C3_partition_invariant [⟨[("key", Cell.str "X")], 2⟩]
        [⟨[("key", Cell.str "X")], 3⟩, ⟨[("key", Cell.str "Y")], 4⟩]
        "key" "key" "A" "B").2.2
      ⟨[("key", Cell.str "Y")], 4⟩ (by decide) "Y" (by decide)⟩

/-- C8: the summary counts are exactly the input lengths and bucket
lengths. -/
theorem claim_C8_summary_counts (f1 f2 : List Row) (c1 c2 n1 n2 : String) :
    (compare f1 f2 c1 c2 n1 n2).summary.totalFile1 = f1.length
    ∧ (compare f1 f2 c1 c2 n1 n2).summary.totalFile2 = f2.length
    ∧ (compare f1 f2 c1 c2 n1 n2).summary.«matches»
        = (compare f1 f2 c1 c2 n1 n2).«matches».length
    ∧ (compare f1 f2 c1 c2 n1 n2).summary.mismatches
        = (compare f1 f2 c1 c2 n1 n2).mismatches.length
    ∧ (compare f1 f2 c1 c2 n1 n2).summary.onlyInFile1
        = (compare f1 f2 c1 c2 n1 n2).onlyInFile1.length
    ∧ (compare f1 f2 c1 c2 n1 n2).summary.onlyInFile2
        = (compare f1 f2 c1 c2 n1 n2).onlyInFile2.length :=
  ⟨rfl, rfl, rfl, rfl, rfl, rfl⟩

end ExcelComparator

namespace ExcelComparator

/-- C1 (spec Scenario 3 evaluated on the code): with one `"REF1"` row
on each side, the engine puts the key in Matched — both compared versions
are the key-column value `"REF1"` — and the Mismatched bucket stays empty,
because `compare` has no value-column parameter at all. -/
theorem claim_C1_mismatch_scenario_fails :
    (compare [⟨[("key", Cell.str "REF1"), ("val", Cell.str "1.0")], 2⟩]
        [⟨[("key", Cell.str "REF1"), ("val", Cell.str "2.0")], 2⟩]
        "key" "key" "A" "B").mismatches = []
    ∧ (compare [⟨[("key", Cell.str "REF1"), ("val", Cell.str "1.0")], 2⟩]
        [⟨[("key", Cell.str "REF1"), ("val", Cell.str "2.0")], 2⟩]
        "key" "key" "A" "B").«matches»
      = [⟨"REF1", Cell.str "REF1", Cell.str "REF1", 2, 2⟩] := by
  exact ⟨by decide, by decide⟩

theorem buildFile2Map_mem_src (c2 : String) :
    ∀ (l : List Row) (m : List (String × VersionRecord)),
      ∀ p ∈ l.foldl
          (fun m row =>
            match normalizeReference (getCell row c2) with
            | some reference => mapSet m reference ⟨getCell row c2, row.rowNumber⟩
            | none => m)
          m,
        p ∈ m ∨ ∃ row ∈ l, getCell row c2 = p.2.version
  | [], _, _, hp => Or.inl hp
  | r :: t, m, p, hp => by
    rw [List.foldl_cons] at hp
    rcases buildFile2Map_mem_src c2 t _ p hp with h | ⟨row, hrow, hrv⟩
    · cases hn : normalizeReference (getCell r c2) with
      | none =>
        rw [hn] at h
        exact Or.inl h
      | some reference =>
        rw [hn] at h
        rcases List.mem_cons.mp h with he | hm2
        · subst he
          exact Or.inr ⟨r, List.mem_cons_self r t, rfl⟩
        · exact Or.inl hm2
    · exact Or.inr ⟨row, List.mem_cons_of_mem r hrow, hrv⟩

theorem buildFile2Map_mem_src_of {f2 : List Row} {c2 : String}
    {p : String × VersionRecord} (hp : p ∈ buildFile2Map f2 c2) :
    ∃ row ∈ f2, getCell row c2 = p.2.version := by
  rcases buildFile2Map_mem_src c2 f2 [] p hp with h | h
  · cases h
  · exact h

/-- C4: key normalization preserves case — the normalized key is the
trimmed text with no case folding — so matched entries align rows whose
trimmed keys agree case-sensitively; at spec Scenario 1 (keys differing
only in case) the result is UnmatchedA=[REF1], UnmatchedB=[ref1], no
matches. -/
theorem claim_C4_case_sensitive_keys :
    (∀ (ref : Cell) (k : String), normalizeReference ref = some k →
        k = jsTrim (jsString ref))
    ∧ (∀ (f1 f2 : List Row) (c1 c2 n1 n2 : String) (e : MatchedRecord),
        e ∈ (compare f1 f2 c1 c2 n1 n2).«matches» →
          jsTrim (jsString e.file1Version) = e.reference
          ∧ ∃ row2 ∈ f2, jsTrim (jsString (getCell row2 c2)) = e.reference)
    ∧ (compare [⟨[("key", Cell.str "REF1"), ("val", Cell.str "v1")], 2⟩]
        [⟨[("key", Cell.str "ref1"), ("val", Cell.str "V1")], 2⟩]
        "key" "key" "A" "B").«matches» = []
    ∧ ((compare [⟨[("key", Cell.str "REF1"), ("val", Cell.str "v1")], 2⟩]
        [⟨[("key", Cell.str "ref1"), ("val", Cell.str "V1")], 2⟩]
        "key" "key" "A" "B").onlyInFile1.map UnmatchedRecord.reference) = ["REF1"]
    ∧ ((compare [⟨[("key", Cell.str "REF1"), ("val", Cell.str "v1")], 2⟩]
        [⟨[("key", Cell.str "ref1"), ("val", Cell.str "V1")], 2⟩]
        "key" "key" "A" "B").onlyInFile2.map UnmatchedRecord.reference) = ["ref1"] := by
  refine ⟨?_, ?_, by decide, by decide, by decide⟩
  · intro ref k h
    exact (normalizeReference_some_spec h).2.symm
  · intro f1 f2 c1 c2 n1 n2 e he
    rw [compare_matches_eq] at he
    obtain ⟨row, _, hf⟩ := List.mem_filterMap.mp he
    obtain ⟨hn, h1v, hmm⟩ := matchEntry_some_elim hf
    constructor
    · rw [h1v]
      exact (normalizeReference_some_spec hn).2
    · obtain ⟨row2, hrow2, hrv⟩ := buildFile2Map_mem_src_of (mapGet_some_mem hmm)
      refine ⟨row2, hrow2, ?_⟩
      rw [hrv]
      exact (normalizeReference_some_spec (buildFile2Map_mem_norm (mapGet_some_mem hmm))).2

/-- Witness for C4: the trimmed mixed-case key is returned verbatim, and a
concrete matched entry aligns equal case-sensitive keys. -/
theorem claim_C4_witness :
    ("ReF1" : String) = jsTrim (jsString (Cell.str " ReF1 "))
    ∧ (jsTrim (jsString
          ((⟨"X", Cell.str "X", Cell.str "X", 2, 3⟩ : MatchedRecord).file1Version))
        = (⟨"X", Cell.str "X", Cell.str "X", 2, 3⟩ : MatchedRecord).reference
      ∧ ∃ row2 ∈ [(⟨[("key", Cell.str "X")], 3⟩ : Row)],
          jsTrim (jsString (getCell row2 "key"))
            = (⟨"X", Cell.str "X", Cell.str "X", 2, 3⟩ : MatchedRecord).reference) :=
  ⟨claim_C4_case_sensitive_keys.1 (Cell.str " ReF1 ") "ReF1" (by decide),
    claim_C4_case_sensitive_keys.2.1 [⟨[("key", Cell.str "X")], 2⟩]
      [⟨[("key", Cell.str "X")], 3⟩] "key" "key" "A" "B"
      ⟨"X", Cell.str "X", Cell.str "X", 2, 3⟩ (by decide)⟩

end ExcelComparator

namespace ExcelComparator

theorem buildFile2Map_foldl_acc (c : String) :
    ∀ (l : List Row) (m : List (String × VersionRecord)),
      l.foldl
          (fun m row =>
            match normalizeReference (getCell row c) with
            | some reference => mapSet m reference ⟨getCell row c, row.rowNumber⟩
            | none => m)
          m
        = buildFile2Map l c ++ m
  | [], m => by simp [buildFile2Map]
  | r :: t, m => by
    rw [List.foldl_cons]
    rw [buildFile2Map_foldl_acc c t]
    have hr : buildFile2Map (r :: t) c
        = buildFile2Map t c ++
            (match normalizeReference (getCell r c) with
             | some reference =>
                mapSet [] reference ⟨getCell r c, r.rowNumber⟩
             | none => []) := by
      show List.foldl _ _ (r :: t) = _
      rw [List.foldl_cons]
      rw [buildFile2Map_foldl_acc c t]
    rw [hr]
    cases hn : normalizeReference (getCell r c) with
    | none => simp [hn, mapSet]
    | some reference => simp [hn, mapSet]

theorem mapGet_append (m1 m2 : List (String × VersionRecord)) (k : String) :
    mapGet (m1 ++ m2) k
      = match mapGet m1 k with
        | some r => some r
        | none => mapGet m2 k := by
  induction m1 with
  | nil => simp [mapGet]
  | cons p t ih =>
    by_cases hk : (p.1 == k) = true
    · simp [mapGet, List.find?_cons, hk]
    · rw [Bool.not_eq_true] at hk
      simp only [mapGet, List.cons_append, List.find?_cons, hk] at ih ⊢
      exact ih

theorem buildFile2Map_append (c : String) (l1 l2 : List Row) :
    buildFile2Map (l1 ++ l2) c = buildFile2Map l2 c ++ buildFile2Map l1 c := by
  show List.foldl _ _ (l1 ++ l2) = _
  rw [List.foldl_append]
  rw [buildFile2Map_foldl_acc c l2]
  rfl

/-- C5: the lookup table collapses duplicate B keys to the last
occurrence (a lookup over appended row lists prefers the later segment),
but UnmatchedB re-scans the raw rows, so a never-consumed duplicated key
is reported once per raw occurrence, in order, while a consumed key never
reaches UnmatchedB at all. -/
theorem claim_C5_duplicate_b_keys :
    (∀ (c : String) (l1 l2 : List Row) (k : String),
        mapGet (buildFile2Map (l1 ++ l2) c) k
          = match mapGet (buildFile2Map l2 c) k with
            | some r => some r
            | none => mapGet (buildFile2Map l1 c) k)
    ∧ mapGet
        (buildFile2Map [⟨[("key", Cell.str "REF1"), ("val", Cell.str "X")], 3⟩,
          ⟨[("key", Cell.str "REF1"), ("val", Cell.str "Y")], 7⟩] "key") "REF1"
      = some ⟨Cell.str "REF1", 7⟩
    ∧ (compare []
        [⟨[("key", Cell.str "REF1"), ("val", Cell.str "X")], 3⟩,
          ⟨[("key", Cell.str "REF1"), ("val", Cell.str "Y")], 7⟩]
        "key" "key" "A" "B").onlyInFile2
      = [⟨"REF1", Cell.str "REF1", 3⟩, ⟨"REF1", Cell.str "REF1", 7⟩]
    ∧ (compare [⟨[("key", Cell.str "REF1")], 2⟩]
        [⟨[("key", Cell.str "REF1"), ("val", Cell.str "X")], 3⟩,
          ⟨[("key", Cell.str "REF1"), ("val", Cell.str "Y")], 7⟩]
        "key" "key" "A" "B").onlyInFile2 = []
    ∧ (∀ (f1 f2 : List Row) (c1 c2 n1 n2 : String) (u : UnmatchedRecord),
        u ∈ (compare f1 f2 c1 c2 n1 n2).onlyInFile2 →
          (∀ e ∈ (compare f1 f2 c1 c2 n1 n2).«matches», e.reference ≠ u.reference)
          ∧ ∀ e ∈ (compare f1 f2 c1 c2 n1 n2).mismatches, e.reference ≠ u.reference) := by
  refine ⟨?_, by decide, by decide, by decide, ?_⟩
  · intro c l1 l2 k
    rw [buildFile2Map_append, mapGet_append]
  · intro f1 f2 c1 c2 n1 n2 u hu
    rw [compare_onlyInFile2_eq] at hu
    obtain ⟨_, hnotin⟩ := unmatchedFile2_mem_elim hu
    constructor
    · intro e he heq
      apply hnotin
      rw [← heq, consumed_mem_iff]
      exact matchRef_gives_consumed ⟨e, he, rfl⟩
    · intro e he _
      rw [compare_mismatches_eq_nil] at he
      cases he

/-- Witness for C5: on a concrete input with a matched key `"X"` and an
unmatched key `"Y"`, no UnmatchedB reference coincides with a matched
reference. -/
theorem claim_C5_witness :
    (⟨"X", Cell.str "X", Cell.str "X", 2, 3⟩ : MatchedRecord).reference
      ≠ (⟨"Y", Cell.str "Y", 4⟩ : UnmatchedRecord).reference :=
  (claim_C5_duplicate_b_keys.2.2.2.2 [⟨[("key", Cell.str "X")], 2⟩]
      [⟨[("key", Cell.str "X")], 3⟩, ⟨[("key", Cell.str "Y")], 4⟩]
      "key" "key" "A" "B" ⟨"Y", Cell.str "Y", 4⟩ (by decide)).1
    ⟨"X", Cell.str "X", Cell.str "X", 2, 3⟩ (by decide)

end ExcelComparator

theorem string_length_zero {s : String} (h : s.length = 0) : s = "" := by
  cases s with
  | mk data =>
    cases data with
    | nil => rfl
    | cons c cs => simp [String.length] at h

namespace ExcelComparator

/-- C6 counterexample: the number 0 is normalized to absent although
it is not empty/null/undefined and its text `"0"` does not trim to the
empty string — so 0 does not normalize to `"0"` as the claim states. -/
theorem claim_C6_counterexample :
    normalizeReference (Cell.num 0) = none
    ∧ ¬ (Cell.num 0 = Cell.empty ∨ jsTrim (jsString (Cell.num 0)) = "") := by
  decide

/-- C6 (amended): normalization returns absent exactly when the raw
value is falsy (null/undefined, the number 0, `false`, the empty string)
or its textual representation trims to the empty string; otherwise it
returns the trimmed text with case preserved. -/
theorem claim_C6_normalization_amended (ref : Cell) :
    (normalizeReference ref = none
        ↔ (truthy ref = false ∨ jsTrim (jsString ref) = ""))
    ∧ ∀ k, normalizeReference ref = some k → k = jsTrim (jsString ref) := by
  constructor
  · cases ht : truthy ref with
    | false => simp [normalizeReference, ht]
    | true =>
      simp only [normalizeReference, ht, if_true, Bool.true_eq_false, false_or]
      constructor
      · intro h
        by_cases hl : 0 < (jsTrim (jsString ref)).length
        · rw [if_pos hl] at h
          cases h
        · exact string_length_zero (Nat.eq_zero_of_not_pos hl)
      · intro h
        rw [h]
        simp
  · intro k h
    exact (normalizeReference_some_spec h).2.symm

/-- Witness for C6: a mixed-case padded string normalizes to its trim, and
the absent-iff-falsy-or-blank characterization holds at that input. -/
theorem claim_C6_witness :
    (normalizeReference (Cell.str " Ab ") = none
        ↔ (truthy (Cell.str " Ab ") = false ∨ jsTrim (jsString (Cell.str " Ab ")) = ""))
    ∧ ("Ab" : String) = jsTrim (jsString (Cell.str " Ab ")) :=
  ⟨(claim_C6_normalization_amended (Cell.str " Ab ")).1,
    (claim_C6_normalization_amended (Cell.str " Ab ")).2 "Ab" (by decide)⟩

/-- C7 counterexample: `versionsMatch` coerces every falsy value — not
only null/undefined — to the empty string, so `valuesMatch(0, "0")` is
`false`, not `true` as the claim states. -/
theorem claim_C7_counterexample :
    versionsMatch (Cell.num 0) (Cell.str "0") = false := by decide

/-- C7 (amended): value equality treats every falsy argument (null,
undefined, 0, `false`, the empty string) as the empty string, then trims,
lower-cases and compares exactly; it is symmetric, and the listed
examples behave as stated except `valuesMatch(0, "0")`, which is false. -/
theorem claim_C7_value_equality_amended :
    (∀ a b : Cell, versionsMatch a b = versionsMatch b a)
    ∧ versionsMatch (Cell.str "ABC") (Cell.str "abc") = true
    ∧ versionsMatch (Cell.str " x ") (Cell.str "x") = true
    ∧ versionsMatch Cell.empty (Cell.str "") = true
    ∧ versionsMatch (Cell.str "a") (Cell.str "b") = false
    ∧ versionsMatch (Cell.num 0) (Cell.str "0") = false
    ∧ ∀ v : Cell, truthy v = false → versionsMatch v (Cell.str "") = true := by
  refine ⟨?_, by decide, by decide, by decide, by decide, by decide, ?_⟩
  · intro a b
    simp only [versionsMatch]
    rw [Bool.eq_iff_iff]
    simp only [beq_iff_eq]
    exact eq_comm
  · intro v hv
    simp [versionsMatch, hv]

/-- Witness for C7: the boolean `false` is falsy and compares equal to the
empty string. -/
theorem claim_C7_witness :
    versionsMatch (Cell.boolean false) (Cell.str "") = true :=
  claim_C7_value_equality_amended.2.2.2.2.2.2 (Cell.boolean false) (by decide)

end ExcelComparator

namespace ArgumentParser

theorem parseFileArguments_cons (fp sn cl : String) (rest : List String)
    (hfp : fp ≠ "") (hsn : sn ≠ "") (hcl : cl ≠ "")
    (hv : isValidColumnLetter cl = true) :
    parseFileArguments ("-f" :: fp :: sn :: cl :: rest)
      = match parseFileArguments rest with
        | Except.ok files => Except.ok (⟨fp, sn, jsToUpper cl⟩ :: files)
        | Except.error e => Except.error e := by
  rw [parseFileArguments.eq_def]
  simp [hfp, hsn, hcl, hv]

/-- C9 counterexample: the legacy two-positional-argument invocation
is rejected — the first non-flag token raises `Unknown argument`. -/
theorem claim_C9_counterexample :
    parse ["fileA.xlsx", "fileB.xlsx"]
      = Except.error "Unknown argument: fileA.xlsx" := by rfl

/-- C9 (amended): the parser accepts only the flag-based form — two
`-f <file> <sheet> <column>` groups whose tokens are non-empty, are not
help flags, and whose column letters match 1–2 alphabetic characters —
and upper-cases the column letters; a two-positional legacy invocation
fails with `Unknown argument`. -/
theorem claim_C9_flag_form_amended (fp1 sn1 cl1 fp2 sn2 cl2 : String)
    (h1 : fp1 ≠ "") (h2 : sn1 ≠ "") (h3 : cl1 ≠ "")
    (h4 : fp2 ≠ "") (h5 : sn2 ≠ "") (h6 : cl2 ≠ "")
    (hv1 : isValidColumnLetter cl1 = true) (hv2 : isValidColumnLetter cl2 = true)
    (hh1 : fp1 ≠ "--help") (hh2 : sn1 ≠ "--help") (hh3 : cl1 ≠ "--help")
    (hh4 : fp2 ≠ "--help") (hh5 : sn2 ≠ "--help") (hh6 : cl2 ≠ "--help")
    (hg1 : fp1 ≠ "-h") (hg2 : sn1 ≠ "-h") (hg3 : cl1 ≠ "-h")
    (hg4 : fp2 ≠ "-h") (hg5 : sn2 ≠ "-h") (hg6 : cl2 ≠ "-h") :
    parse ["-f", fp1, sn1, cl1, "-f", fp2, sn2, cl2]
      = Except.ok ⟨[⟨fp1, sn1, jsToUpper cl1⟩, ⟨fp2, sn2, jsToUpper cl2⟩], false⟩ := by
  have hcontains1 :
      (["-f", fp1, sn1, cl1, "-f", fp2, sn2, cl2].contains "--help") = false := by
    have k1 := Ne.symm hh1
    have k2 := Ne.symm hh2
    have k3 := Ne.symm hh3
    have k4 := Ne.symm hh4
    have k5 := Ne.symm hh5
    have k6 := Ne.symm hh6
    simp [k1, k2, k3, k4, k5, k6]
  have hcontains2 :
      (["-f", fp1, sn1, cl1, "-f", fp2, sn2, cl2].contains "-h") = false := by
    have k1 := Ne.symm hg1
    have k2 := Ne.symm hg2
    have k3 := Ne.symm hg3
    have k4 := Ne.symm hg4
    have k5 := Ne.symm hg5
    have k6 := Ne.symm hg6
    simp [k1, k2, k3, k4, k5, k6]
  have hargs : parseFileArguments ["-f", fp1, sn1, cl1, "-f", fp2, sn2, cl2]
      = Except.ok [⟨fp1, sn1, jsToUpper cl1⟩, ⟨fp2, sn2, jsToUpper cl2⟩] := by
    rw [parseFileArguments_cons fp1 sn1 cl1 _ h1 h2 h3 hv1]
    rw [parseFileArguments_cons fp2 sn2 cl2 _ h4 h5 h6 hv2]
    rfl
  unfold parse
  rw [hcontains1, hcontains2, hargs]
  rfl

/-- Witness for C9: a concrete flag-based invocation parses, with the
column letters upper-cased. -/
theorem claim_C9_witness :
    parse ["-f", "a.xlsx", "S1", "a", "-f", "b.xlsx", "S2", "bc"]
      = Except.ok ⟨[⟨"a.xlsx", "S1", "A"⟩, ⟨"b.xlsx", "S2", "BC"⟩], false⟩ :=
  claim_C9_flag_form_amended "a.xlsx" "S1" "a" "b.xlsx" "S2" "bc"
    (by decide) (by decide) (by decide) (by decide) (by decide) (by decide)
    (by decide) (by decide) (by decide) (by decide) (by decide) (by decide)
    (by decide) (by decide) (by decide) (by decide) (by decide) (by decide)
    (by decide) (by decide)

end ArgumentParser
